import Mathlib

/-!
# Verification of the OnStream SCSI tape driver (`onstreamsg.cpp`)

A shallow embedding of the driver's auxiliary-frame codec, sense classifier,
firmware-revision parser, pending-write buffer ledger, write-error recovery
selection and read-loop frame handling, with theorems checking the
specification's claims against the code.

Machine integers are modelled as `Nat` with explicit `% 2^w` where the C
arithmetic wraps.  On the reference environment (32-bit little-endian Linux)
`UINT8/UINT16/UINT32/UINT64` are 1/2/4/8 bytes.
-/

namespace Onstream


/-- A byte buffer indexed by offset (the 512-byte `FAuxFrame` region;
`FormatAuxFrame` fills offsets 0–511, everything else stays 0). -/
abbrev Buf := Nat → Nat

/-- `memset(FAuxFrame, 0, 512)`: the all-zero buffer. -/
def zeroBuf : Buf := fun _ => 0

/-- Store the byte list `bs` at offset `off` (models `memcpy` / byte stores
into the frame image). -/
def storeBytes (b : Buf) (off : Nat) (bs : List Nat) : Buf :=
  fun i => if off ≤ i ∧ i < off + bs.length then bs.getD (i - off) 0 else b i

/-- The `width` bytes `cpAndSwap(dest, &v, width)` stores: the little-endian
host value `v` written byte-reversed, i.e. big-endian (most significant byte
first). -/
def beBytes : Nat → Nat → List Nat
  | 0, _ => []
  | w + 1, v => beBytes w (v / 256) ++ [v % 256]

/-- The `width` bytes `memcpy(dest, &v, width)` stores: the little-endian
in-memory image of `v`. -/
def leBytes : Nat → Nat → List Nat
  | 0, _ => []
  | w + 1, v => v % 256 :: leBytes w (v / 256)

/-- Value of a big-endian byte list. -/
def beOfList (bs : List Nat) : Nat := bs.foldl (fun acc b => acc * 256 + b) 0

/-- Value of a little-endian byte list. -/
def leOfList : List Nat → Nat
  | [] => 0
  | b :: bs => b + 256 * leOfList bs

/-- Read `w` consecutive bytes starting at `off`. -/
def readBytes (b : Buf) (off w : Nat) : List Nat :=
  (List.range w).map (fun i => b (off + i))

/-- `cpAndSwap(&field, &FAuxFrame[off], w)`: read a big-endian field of
width `w` at offset `off` into a host integer. -/
def beVal (b : Buf) (off w : Nat) : Nat := beOfList (readBytes b off w)

/-- `memcpy(&field, &FAuxFrame[off], w)`: read `w` bytes at `off` as a
little-endian host integer. -/
def leVal (b : Buf) (off w : Nat) : Nat := leOfList (readBytes b off w)

/-! ## Frame codec (`FormatAuxFrame` / `unFormatAuxFrame`)

The C `struct AUX_FRAME` is embedded with exactly the fields the codec
processes.  Fields the codec never transfers from or to the record
(`FormatID`, `HwField`, the reserved areas, `PartDescVersion` — encoded as
the constant `0x01`) are omitted.  The C fixed array of 16
`DATA_ACCESS_TABLE_ENTRY` slots together with `nEntries` is represented as
the list `dat` of its first `nEntries` entries (`nEntries = dat.length`);
the remaining slots carry no information (zeroed on encode, not read back
on decode). -/

structure DatEntry where
  size : Nat
  LogicalElements : Nat
  flags : Nat
deriving DecidableEq

/-- A default (all-zero) data-access-table entry. -/
def dummyEntry : DatEntry := ⟨0, 0, 0⟩

structure AUX_FRAME where
  ApplicationSig : Nat
  UpdateFrameCounter : Nat
  FrameType : Nat
  PartitionNumber : Nat
  WritePassCounter : Nat
  FirstFrameAddress : Nat
  LastFrameAddress : Nat
  FrameSequenceNumber : Nat
  LogicalBlockAddress : Nat
  dat : List DatEntry
  FilemarkCount : Nat
  LastMarkFrameAddress : Nat
  DriverUnique : List Nat
deriving DecidableEq

/-- The encode loop
`for (counter = 0; counter < nEntries; counter++) { ... }`: store entry
`counter` at offsets `60+8k` (size, 4 bytes, byte-swapped), `64+8k`
(LogicalElements, 2 bytes, byte-swapped) and `66+8k` (flags). -/
def storeDat (b : Buf) (k : Nat) : List DatEntry → Buf
  | [] => b
  | e :: es =>
    storeDat
      (storeBytes
        (storeBytes (storeBytes b (60 + 8 * k) (beBytes 4 e.size))
          (64 + 8 * k) (beBytes 2 e.LogicalElements))
        (66 + 8 * k) [e.flags % 256])
      (k + 1) es

/-- The scalar stores of `FormatAuxFrame` up to and including the
`nEntries` byte (`FAuxFrame[58]`), in source order, innermost first; the
base is the `memset(FAuxFrame, 0, 512)` zero buffer. -/
def formatScalars (m : AUX_FRAME) : Buf :=
  let b1 := storeBytes zeroBuf 4 (leBytes 4 m.ApplicationSig)
  let b2 := storeBytes b1 12 (beBytes 4 m.UpdateFrameCounter)
  let b3 := storeBytes b2 16 (beBytes 2 m.FrameType)
  let b4 := storeBytes b3 20 [m.PartitionNumber % 256]
  let b5 := storeBytes b4 21 [1]
  let b6 := storeBytes b5 22 (beBytes 2 m.WritePassCounter)
  let b7 := storeBytes b6 24 (beBytes 4 m.FirstFrameAddress)
  let b8 := storeBytes b7 28 (beBytes 4 m.LastFrameAddress)
  let b9 := storeBytes b8 44 (beBytes 4 m.FrameSequenceNumber)
  let b10 := storeBytes b9 48 (beBytes 8 m.LogicalBlockAddress)
  let b11 := storeBytes b10 56 [8]
  storeBytes b11 58 [m.dat.length % 256]

/-- `FormatAuxFrame(AuxFrame, FAuxFrame)`: marshal the record into the
512-byte on-tape image: the scalar stores, the entry-table loop, then the
trailing stores (FilemarkCount, the four `0xFF` bytes, LastMarkFrameAddress
and the `DriverUnique` `memcpy`). -/
def FormatAuxFrame (m : AUX_FRAME) : Buf :=
  let b13 := storeDat (formatScalars m) 0 m.dat
  let b14 := storeBytes b13 192 (beBytes 4 m.FilemarkCount)
  let b15 := storeBytes b14 196 [255, 255, 255, 255]
  let b16 := storeBytes b15 200 (beBytes 4 m.LastMarkFrameAddress)
  storeBytes b16 224 (m.DriverUnique.map (· % 256))

/-- One iteration of the decode loop: entry `k` read back from offsets
`60+8k`, `64+8k` and `66+8k`. -/
def readDatEntry (b : Buf) (k : Nat) : DatEntry :=
  { size := beVal b (60 + 8 * k) 4
    LogicalElements := beVal b (64 + 8 * k) 2
    flags := b (66 + 8 * k) }

def readDat (b : Buf) (n : Nat) : List DatEntry :=
  (List.range n).map (readDatEntry b)

/-- `unFormatAuxFrame(FAuxFrame, AuxFrame)`: unmarshal the 512-byte image.
The C function returns early — leaving no usable metadata in the output
record — when any of the first four marker bytes is nonzero; that "Empty"
outcome is modelled as `none`. -/
def unFormatAuxFrame (b : Buf) : Option AUX_FRAME :=
  if b 0 ≠ 0 ∨ b 1 ≠ 0 ∨ b 2 ≠ 0 ∨ b 3 ≠ 0 then
    none
  else
    some
      { ApplicationSig := leVal b 4 4
        UpdateFrameCounter := beVal b 12 4
        FrameType := beVal b 16 2
        PartitionNumber := b 20
        WritePassCounter := beVal b 22 2
        FirstFrameAddress := beVal b 24 4
        LastFrameAddress := beVal b 28 4
        FrameSequenceNumber := beVal b 44 4
        LogicalBlockAddress := beVal b 48 8
        dat := readDat b (if b 58 > 16 then 16 else b 58)
        FilemarkCount := beVal b 192 4
        LastMarkFrameAddress := beVal b 200 4
        DriverUnique := readBytes b 224 32 }

/-- Well-formed record: every field fits its C struct type and the
data-access table has at most its 16 slots. -/
def wellFormed (m : AUX_FRAME) : Prop :=
  m.ApplicationSig < 4294967296 ∧
  m.UpdateFrameCounter < 4294967296 ∧
  m.FrameType < 65536 ∧
  m.PartitionNumber < 256 ∧
  m.WritePassCounter < 65536 ∧
  m.FirstFrameAddress < 4294967296 ∧
  m.LastFrameAddress < 4294967296 ∧
  m.FrameSequenceNumber < 4294967296 ∧
  m.LogicalBlockAddress < 18446744073709551616 ∧
  m.dat.length ≤ 16 ∧
  (∀ e ∈ m.dat, e.size < 4294967296 ∧ e.LogicalElements < 65536 ∧ e.flags < 256) ∧
  m.FilemarkCount < 4294967296 ∧
  m.LastMarkFrameAddress < 4294967296 ∧
  m.DriverUnique.length = 32 ∧
  (∀ x ∈ m.DriverUnique, x < 256)

instance (m : AUX_FRAME) : Decidable (wellFormed m) := by
  unfold wellFormed
  infer_instance

/-- A sample well-formed metadata record used as the round-trip witness. -/
def sampleFrame : AUX_FRAME :=
  { ApplicationSig := 0x4C494E58
    UpdateFrameCounter := 7
    FrameType := 0x8000
    PartitionNumber := 3
    WritePassCounter := 5
    FirstFrameAddress := 10
    LastFrameAddress := 2000
    FrameSequenceNumber := 42
    LogicalBlockAddress := 99
    dat := [⟨32768, 1, 12⟩, ⟨100, 2, 3⟩]
    FilemarkCount := 1
    LastMarkFrameAddress := 4294967295
    DriverUnique := List.replicate 32 0 }

/-! ## Sense interpreter (`CheckSense`) -/

/-- `enum Sense` from the source. -/
inductive Sense where
  | SNoSense | SInvalidCDB | SNotReportable | SReadyInProgress | SInitRequired
  | SNoMedium | SLongWrite | SMediumWriteError | SUnrecoveredReadError
  | STimeoutWaitPos | SInvalidParameter | SEOD | SNotReadyToReady
  | SPowerOnReset | SEndOfMedium | SUnknown
deriving DecidableEq

/-- The packed value `(SenseKey() << 16) | (ASC() << 8) | ASCQ()` that
`CheckSense` switches on. -/
def packSense (key asc ascq : Nat) : Nat := key <<< 16 ||| asc <<< 8 ||| ascq

/-- `CheckSense(pOnStream)`: the switch over the packed sense triple, cases
in source order; the `default` arm yields `SUnknown`. -/
def CheckSense (key asc ascq : Nat) : Sense :=
  let v := packSense key asc ascq
  if v = 0x000000 then .SNoSense
  else if v = 0x052400 then .SInvalidCDB
  else if v = 0x020400 then .SNotReportable
  else if v = 0x020401 then .SReadyInProgress
  else if v = 0x020402 then .SInitRequired
  else if v = 0x023A00 then .SNoMedium
  else if v = 0x020408 then .SLongWrite
  else if v = 0x031100 then .SUnrecoveredReadError
  else if v = 0x030C00 then .SMediumWriteError
  else if v = 0x052602 then .SInvalidParameter
  else if v = 0x062800 then .SNotReadyToReady
  else if v = 0x062900 then .SPowerOnReset
  else if v = 0x0D0002 then .SEndOfMedium
  else if v = 0x080005 then .SEOD
  else .SUnknown

/-- The fixed table of known packed sense values (spec §6). -/
def senseTable : List Nat :=
  [0x000000, 0x052400, 0x020400, 0x020401, 0x020402, 0x023A00, 0x020408,
   0x030C00, 0x031100, 0x052602, 0x062800, 0x062900, 0x0D0002, 0x080005]

/-! ## Firmware version normalizer (`OnStream::ParseFirmwareRev`) -/

/-- `ParseFirmwareRev(str)` on the four ASCII character codes of the
revision string.  The C computes in `int` and stores into a `UINT32`; the
wrap to 32 bits is the final `% 2^32`.  `str[1] == '.'` is `c1 = 46`,
`'0'` is 48, `str[3] & 0x1f` is `c3 &&& 31`, and `str[3] >= 0x60` is
`96 ≤ c3` (ASCII inputs). -/
def ParseFirmwareRev (c0 c1 c2 c3 : Nat) : Nat :=
  (if c1 = 46 then
      (((c0 : Int) - 48) * 10000 + ((c2 : Int) - 48) * 1000 +
        ((c3 : Int) - 48) * 100) % 4294967296
    else
      (((c0 : Int) - 48) * 10000 + ((c1 : Int) - 48) * 1000 +
          ((c2 : Int) - 48) * 100 - 100 +
        (2 * ((c3 &&& 31 : Nat) : Int) + (if 96 ≤ c3 then 1 else 0))) %
        4294967296).toNat

/-! ## Write-error recovery selection (`OnStream::SkipLocate` and `main`) -/

/-- The drive responses one `SkipLocate` call consumes: the two
`ReadPosition` exchanges (`first`/`last` fields after `ntohl`) and the
`LOCATE` exchange outcome. -/
structure DriveIO where
  readPosOk : Bool
  posFirst : Nat
  posLast : Nat
  locateOk : Bool
  readPos2Ok : Bool
  posFirst2 : Nat
  posLast2 : Nat
deriving DecidableEq

/-- `OnStream::SkipLocate(skip)`: returns 0 immediately when
`Firmware < 10600` (or on any transport failure), else relocates to
`last + skip` with the SKIP bit set (drive keeps its buffers) and returns
the drive-reported `first` position afterwards.  The second component is
the `LOCATE` target issued, `none` when no relocation was attempted. -/
def SkipLocate (Firmware skip : Nat) (d : DriveIO) : Nat × Option Nat :=
  if Firmware < 10600 then (0, none)
  else if d.readPosOk = false then (0, none)
  else if d.locateOk = false then (0, some (d.posLast + skip))
  else if d.readPos2Ok = false then (0, some (d.posLast + skip))
  else (d.posFirst2, some (d.posLast + skip))

/-- The two write-error recovery strategies of the
`SMediumWriteError`/`STimeoutWaitPos` arm of `main`'s write loop, carrying
the resulting `CurrentFrame`. -/
inductive Recovery where
  | skipLocatePath (newCurrentFrame : Nat)
  | requeuePath (newCurrentFrame : Nat)
deriving DecidableEq

/-- `if ((skip = pOnStream->SkipLocate(skip))) CurrentFrame = skip; else
CurrentFrame += RequeueData(...);` — strategy selection on a medium write
error.  `requeueReturn` abstracts `RequeueData`'s return value. -/
def writeErrorRecovery (Firmware CurrentFrame skip : Nat) (d : DriveIO)
    (requeueReturn : Nat) : Recovery :=
  let r := (SkipLocate Firmware skip d).1
  if r ≠ 0 then .skipLocatePath r
  else .requeuePath (CurrentFrame + requeueReturn)

/-! ## Pending-write buffer ledger (`TAPEBUFFER`, `TotalBufferedFrames`)

A ledger entry owns one full 33,280-byte frame image, modelled as a byte
list. -/

abbrev Frame := List Nat

/-- `2^32`: the wrap of the 32-bit unsigned counters and frame addresses. -/
def M32 : Nat := 4294967296

/-- 32-bit wrapping add. -/
def add32 (a b : Nat) : Nat := (a + b) % M32

/-- 32-bit wrapping subtract. -/
def sub32 (a b : Nat) : Nat := (a + (M32 - b % M32)) % M32

/-- The `while (counter < EntriesToDelete && ThisTapeBuffer != NULL)` loop
of `DeleteFrames`: walk the list freeing nodes, returning the node the
walk stopped at (the remaining list) and the final `counter`. -/
def deleteFramesLoop (n : Nat) : List Frame → Nat → (List Frame × Nat)
  | [], c => ([], c)
  | f :: tl, c => if c < n then deleteFramesLoop n tl (c + 1) else (f :: tl, c)

/-- `DeleteFrames(FirstBuffer, EntriesToDelete)` on the ledger list hanging
off `*FirstBuffer` together with the `TotalBufferedFrames` counter (which
is decremented once per freed node): returns the list `*FirstBuffer` holds
afterwards, the new counter, and the success flag — `false` is the
"Internal Frame Buffer/Tape buffer mismatch" consistency fault, in which
case `*FirstBuffer` is left unassigned. -/
def DeleteFrames (ledger : List Frame) (n : Nat) (total : Nat) :
    List Frame × Nat × Bool :=
  let r := deleteFramesLoop n ledger 0
  if r.2 < n then (ledger, total - r.2, false)
  else (r.1, total - r.2, true)

/-- Actions a recovery routine issues to the drive. -/
inductive TapeAction where
  | locate (pos : Nat)
  | deleteBuffer (n : Nat)
  | writeFrame (f : Frame)
deriving DecidableEq

/-- The non-retry path of `RequeueData`, after its `CheckWrittenFrames`
trim: `*CurrentBuffer` holds the drive-reported buffered-frame count; on
`*CurrentBuffer != TotalBufferedFrames` the program calls `exit(-1)`
(modelled `none`); otherwise it discards the drive's buffer, relocates to
`CurrentFrame + BadFrames` (`BadFrames = skip`), resends every ledger
frame oldest-first and returns `BadFrames`. -/
def RequeueData (CurrentFrame : Nat) (ledger : List Frame)
    (CurrentBuffer TotalBufferedFrames skip : Nat) :
    Option (List TapeAction × Nat) :=
  if CurrentBuffer ≠ TotalBufferedFrames then none
  else
    some (TapeAction.deleteBuffer CurrentBuffer ::
      TapeAction.locate (CurrentFrame + skip) ::
        ledger.map TapeAction.writeFrame, skip)

/-! ### The global list state

`TapeBuffer` (the global head), main's `LastTapeBuffer` (the tail
pointer handed to `AddFrameToBuffer`) and `TotalBufferedFrames` together:

* `chain` — the live allocated nodes in `Next` order, starting from the
  first currently-linked node;
* `headPos` — the index in `chain` that the global head `TapeBuffer`
  points to, `none` when `TapeBuffer == NULL`;
* `lastPtr` — `*LastBuffer`: 0 for `NULL`, 1 when it points to the last
  node of `chain`, 2 when it dangles at a freed node;
* `total` — `TotalBufferedFrames`;
* `ub` — set when an execution dereferences a dangling pointer
  (undefined behaviour in the C); nothing is claimed about such states. -/

structure LedgerSt where
  chain : List Frame
  headPos : Option Nat
  lastPtr : Nat
  total : Nat
  ub : Bool
deriving DecidableEq

/-- The initial globals: `TapeBuffer = NULL`, `LastTapeBuffer = NULL`,
`TotalBufferedFrames = 0`. -/
def initLedger : LedgerSt := ⟨[], none, 0, 0, false⟩

/-- The nodes reachable from the global head pointer `TapeBuffer`. -/
def reachableFrames (s : LedgerSt) : List Frame :=
  match s.headPos with
  | none => []
  | some i => s.chain.drop i

/-- `AddFrameToBuffer(&LastTapeBuffer, buf)`: allocate a node holding a
copy of the frame, link it after `*LastBuffer` when that is non-null, then
`if (TapeBuffer == NULL) TapeBuffer = *LastBuffer;` (note: the OLD last
pointer, not the new node), increment `TotalBufferedFrames`, and store the
new node into `*LastBuffer`. -/
def AddFrameToBuffer (s : LedgerSt) (f : Frame) : LedgerSt :=
  { chain := s.chain ++ [f]
    headPos :=
      match s.headPos with
      | some i => some i
      | none => if s.lastPtr = 1 then some (s.chain.length - 1) else none
    lastPtr := 1
    total := s.total + 1
    ub := s.ub || s.lastPtr == 2 || (s.lastPtr == 0 && !s.chain.isEmpty) }

/-- `DeleteFrames(&TapeBuffer, n)` acting on the global state: walk from
the head freeing nodes (decrementing `TotalBufferedFrames` per node); on
success `TapeBuffer` moves past the freed prefix, on the consistency fault
it is left pointing at the (now freed) old first node. -/
def trimLedger (s : LedgerSt) (n : Nat) : LedgerSt × Bool :=
  match s.headPos with
  | none =>
      -- the loop body never runs; `counter = 0 < n` is the fault
      if 0 < n then (s, false) else (s, true)
  | some i =>
      let reach := s.chain.drop i
      if reach.length < n then
        -- walked off the end: every reachable node freed, head dangling
        ({ s with chain := s.chain.take i
                  total := s.total - reach.length
                  lastPtr := if 0 < reach.length then 2 else s.lastPtr
                  ub := true }, false)
      else
        ({ s with chain := s.chain.take i ++ s.chain.drop (i + n)
                  headPos := if i + n < s.chain.length then some i else none
                  total := s.total - n
                  lastPtr :=
                    if s.chain.length ≤ i + n ∧ 0 < n then 2 else s.lastPtr },
          true)

/-! ## Power-on-reset recovery (`main` write loop, `SPowerOnReset` arm) -/

/-- `FlushBuffer(pOnStream)`: ask the drive for its buffered-frame count
and, when nonzero, discard that many frames. -/
def FlushBufferActs (CurrentBuffer : Nat) : List TapeAction :=
  if CurrentBuffer = 0 then [] else [TapeAction.deleteBuffer CurrentBuffer]

/-- `RequeueData(..., fRetry = true)`: read the drive position, relocate
there (`BadFrames = 0`), and resend every frame reachable from the global
ledger head, oldest first, unmodified. -/
def RequeueDataRetry (drivePos : Nat) (s : LedgerSt) : List TapeAction :=
  TapeAction.locate (drivePos + 0) ::
    (reachableFrames s).map TapeAction.writeFrame

/-- The `SPowerOnReset` arm of `main`'s write loop: flush the drive's
buffer, locate back to `CurrentFrame - TotalBufferedFrames`, then replay
through `RequeueData(..., fRetry = true)`.  (`WaitForReady`,
`DataTransferMode` and `VendorID` exchange no locate/write/discard
actions.) -/
def powerOnResetActions (CurrentFrame driveBufCount drivePos : Nat)
    (s : LedgerSt) : List TapeAction :=
  FlushBufferActs driveBufCount ++
    TapeAction.locate (sub32 CurrentFrame s.total) ::
      RequeueDataRetry drivePos s

/-- The frames written by a list of tape actions, in order. -/
def writesOf : List TapeAction → List Frame
  | [] => []
  | TapeAction.writeFrame f :: rest => f :: writesOf rest
  | TapeAction.locate _ :: rest => writesOf rest
  | TapeAction.deleteBuffer _ :: rest => writesOf rest

/-! ## Read session (`main`, read mode, per-frame handling)

The state of the streaming-read loop after a successful `Read` whose sense
classified `SNoSense`: `CurrentFrame` and `CurrentSeqNo` are `unsigned
long` (32-bit), `retry` is a small `int`, `eof` ends the loop, `out` is
the byte stream written to the output sink so far. -/

structure ReadState where
  CurrentFrame : Nat
  CurrentSeqNo : Nat
  retry : Nat
  eof : Bool
  out : List Nat
deriving DecidableEq

/-- One frame's disposition: the new state, the bytes emitted to the sink
by this frame, and the `Locate` target when the step relocates. -/
structure StepResult where
  st : ReadState
  emitted : List Nat
  reloc : Option Nat
deriving DecidableEq

/-- One iteration of the read loop from `CurrentFrame++` through the
`switch (AuxFrame.FrameType)`, for a successfully read frame with decoded
metadata `m` and payload bytes `payload` (the first 32768 bytes of `buf`):

* data frame (`0x8000`): skip when `WritePassCounter` differs from the
  session's `WritePass`; adopt the frame's sequence number when
  `CurrentSeqNo == 0 && StartFrameSet`; skip a low sequence number; on a
  high sequence number bump `retry` and either give up (`eof`) past the
  ceiling or jump back by `seq - CurrentSeqNo + 1` (adjusted past the
  secondary config area) and relocate; on a match consume: `CurrentSeqNo++`,
  `retry = 0`, and `fwrite` exactly the first data-access-table entry's
  `size` bytes of the payload;
* end-of-data frame (`0x0100`): end the session unless in error recovery;
* unknown frame type: skip. -/
def readFrameStep (WritePass : Nat) (StartFrameSet : Bool)
    (second_cfg adr_version : Nat) (s0 : ReadState)
    (m : AUX_FRAME) (payload : List Nat) : StepResult :=
  let s := { s0 with CurrentFrame := add32 s0.CurrentFrame 1 }
  if m.FrameType = 0x8000 then
    if m.WritePassCounter ≠ WritePass then ⟨s, [], none⟩
    else
      let cur :=
        if s.CurrentSeqNo = 0 ∧ StartFrameSet then m.FrameSequenceNumber
        else s.CurrentSeqNo
      let s := { s with CurrentSeqNo := cur }
      if m.FrameSequenceNumber < cur then ⟨s, [], none⟩
      else if cur < m.FrameSequenceNumber then
        if 5 < s.retry then ⟨{ s with retry := s.retry + 1, eof := true }, [], none⟩
        else
          let c1 := sub32 s.CurrentFrame (add32 (sub32 m.FrameSequenceNumber cur) 1)
          let c2 :=
            if second_cfg < c1 ∧ c1 ≤ second_cfg + 5 then
              sub32 c1 (if adr_version < 10004 then 6 else 5)
            else c1
          ⟨{ s with retry := s.retry + 1, CurrentFrame := c2 }, [], some c2⟩
      else
        let sz := (m.dat.headD dummyEntry).size
        let ns := { s with CurrentSeqNo := add32 cur 1, retry := 0, out := s.out ++ payload.take sz }
        ⟨ns, payload.take sz, none⟩
  else if m.FrameType = 0x0100 then
    ⟨if s.retry = 0 then { s with eof := true } else s, [], none⟩
  else ⟨s, [], none⟩

/-- The read loop over a sequence of successfully read frames: the
`while (!eof ...)` guard is checked before each frame. -/
def readRun (WritePass : Nat) (StartFrameSet : Bool)
    (second_cfg adr_version : Nat) :
    ReadState → List (AUX_FRAME × List Nat) → ReadState
  | s, [] => s
  | s, (m, p) :: rest =>
      if s.eof then s
      else
        readRun WritePass StartFrameSet second_cfg adr_version
          (readFrameStep WritePass StartFrameSet second_cfg adr_version s m p).st
          rest

/-- A data frame written by a stale pass: its `WritePassCounter` differs
from the session's. -/
def staleData (WritePass : Nat) (m : AUX_FRAME) : Bool :=
  m.FrameType == 0x8000 && m.WritePassCounter != WritePass

/-! ### Stale write passes (C9) -/

/-- Two read states that agree on everything except the tape position
`CurrentFrame`. -/
def shadowEq (s s' : ReadState) : Prop :=
  s.CurrentSeqNo = s'.CurrentSeqNo ∧ s.retry = s'.retry ∧
    s.eof = s'.eof ∧ s.out = s'.out

/-! ## Theorems

Byte-store lemmas, the codec round trip, and the claim theorems, component
by component in the order of the definitions above. -/

@[simp] theorem beBytes_length (w v : Nat) : (beBytes w v).length = w := by
  induction w generalizing v with
  | zero => rfl
  | succ w ih => simp [beBytes, ih]

@[simp] theorem leBytes_length (w v : Nat) : (leBytes w v).length = w := by
  induction w generalizing v with
  | zero => rfl
  | succ w ih => simp [leBytes, ih]

theorem beOfList_append_singleton (bs : List Nat) (x : Nat) :
    beOfList (bs ++ [x]) = beOfList bs * 256 + x := by
  simp [beOfList, List.foldl_append]

theorem beOfList_beBytes (w v : Nat) : beOfList (beBytes w v) = v % 256 ^ w := by
  induction w generalizing v with
  | zero => simp [beBytes, beOfList, Nat.mod_one]
  | succ w ih =>
    rw [beBytes, beOfList_append_singleton, ih]
    have h : (256 : Nat) ^ (w + 1) = 256 * 256 ^ w := by ring
    rw [h, Nat.mod_mul]
    ring

theorem leOfList_leBytes (w v : Nat) : leOfList (leBytes w v) = v % 256 ^ w := by
  induction w generalizing v with
  | zero => simp [leBytes, leOfList, Nat.mod_one]
  | succ w ih =>
    rw [leBytes, leOfList, ih]
    have h : (256 : Nat) ^ (w + 1) = 256 * 256 ^ w := by ring
    rw [h, Nat.mod_mul]

/-- Reading a list back out positionally reproduces the list. -/
theorem map_range_getD {α : Type} (d : α) (l : List α) :
    (List.range l.length).map (fun i => l.getD i d) = l := by
  induction l with
  | nil => rfl
  | cons x xs ih =>
    rw [List.length_cons, List.range_succ_eq_map, List.map_cons, List.map_map]
    simp only [Function.comp_def, List.getD_cons_zero, List.getD_cons_succ]
    exact congrArg (x :: ·) ih

/-- A point below or above the stored range is untouched. -/
theorem storeBytes_point_out (b : Buf) (off : Nat) (bs : List Nat) (i : Nat)
    (h : i < off ∨ off + bs.length ≤ i) : storeBytes b off bs i = b i := by
  unfold storeBytes
  rw [if_neg]
  omega

/-- A point inside the stored range reads the stored byte. -/
theorem storeBytes_point_in (b : Buf) (off : Nat) (bs : List Nat) (i : Nat)
    (h : i < bs.length) : storeBytes b off bs (off + i) = bs.getD i 0 := by
  unfold storeBytes
  rw [if_pos (by omega)]
  congr 1
  omega

/-- Reading a range disjoint from the store sees the underlying buffer. -/
theorem readBytes_storeBytes_out (b : Buf) (off w off' : Nat) (bs : List Nat)
    (h : off' + bs.length ≤ off ∨ off + w ≤ off') :
    readBytes (storeBytes b off' bs) off w = readBytes b off w := by
  unfold readBytes
  refine List.map_congr_left ?_
  intro i hi
  rw [List.mem_range] at hi
  exact storeBytes_point_out b off' bs (off + i) (by omega)

/-- Reading the exact stored range recovers the stored bytes. -/
theorem readBytes_storeBytes_exact (b : Buf) (off : Nat) (bs : List Nat) :
    readBytes (storeBytes b off bs) off bs.length = bs := by
  unfold readBytes
  have h : ∀ i ∈ List.range bs.length,
      storeBytes b off bs (off + i) = bs.getD i 0 := by
    intro i hi
    rw [List.mem_range] at hi
    exact storeBytes_point_in b off bs i hi
  rw [List.map_congr_left h]
  exact map_range_getD 0 bs

theorem beVal_storeBytes_out (b : Buf) (off w off' : Nat) (bs : List Nat)
    (h : off' + bs.length ≤ off ∨ off + w ≤ off') :
    beVal (storeBytes b off' bs) off w = beVal b off w := by
  unfold beVal
  rw [readBytes_storeBytes_out b off w off' bs h]

theorem leVal_storeBytes_out (b : Buf) (off w off' : Nat) (bs : List Nat)
    (h : off' + bs.length ≤ off ∨ off + w ≤ off') :
    leVal (storeBytes b off' bs) off w = leVal b off w := by
  unfold leVal
  rw [readBytes_storeBytes_out b off w off' bs h]

theorem beVal_storeBytes_exact (b : Buf) (off w : Nat) (bs : List Nat)
    (h : bs.length = w) : beVal (storeBytes b off bs) off w = beOfList bs := by
  unfold beVal
  rw [← h, readBytes_storeBytes_exact]

theorem leVal_storeBytes_exact (b : Buf) (off w : Nat) (bs : List Nat)
    (h : bs.length = w) : leVal (storeBytes b off bs) off w = leOfList bs := by
  unfold leVal
  rw [← h, readBytes_storeBytes_exact]

/-! ### Round-trip lemmas -/

theorem readBytes_congr {b b' : Buf} (off w : Nat)
    (h : ∀ i, off ≤ i → i < off + w → b i = b' i) :
    readBytes b off w = readBytes b' off w := by
  unfold readBytes
  refine List.map_congr_left ?_
  intro i hi
  rw [List.mem_range] at hi
  exact h (off + i) (by omega) (by omega)

/-- The entry-table stores all lie at offsets `≥ 60 + 8k`. -/
theorem storeDat_point_lt (es : List DatEntry) (k p : Nat) (b : Buf)
    (h : p < 60 + 8 * k) : storeDat b k es p = b p := by
  induction es generalizing k b with
  | nil => rfl
  | cons e es ih =>
    rw [storeDat, ih _ _ (by omega)]
    rw [storeBytes_point_out _ _ _ _ (Or.inl (by omega)),
      storeBytes_point_out _ _ _ _ (Or.inl (by omega)),
      storeBytes_point_out _ _ _ _ (Or.inl (by omega))]

/-- With at most 16 entries the entry-table stores all lie at offsets
`< 187`. -/
theorem storeDat_point_ge (es : List DatEntry) (k p : Nat) (b : Buf)
    (hk : k + es.length ≤ 16) (h : 187 ≤ p) : storeDat b k es p = b p := by
  induction es generalizing k b with
  | nil => rfl
  | cons e es ih =>
    rw [List.length_cons] at hk
    rw [storeDat, ih _ _ (by omega)]
    rw [storeBytes_point_out _ _ _ _ (Or.inr (by simp; omega)),
      storeBytes_point_out _ _ _ _ (Or.inr (by simp; omega)),
      storeBytes_point_out _ _ _ _ (Or.inr (by simp; omega))]

theorem beVal_storeDat_lt (es : List DatEntry) (k off w : Nat) (b : Buf)
    (h : off + w ≤ 60 + 8 * k) :
    beVal (storeDat b k es) off w = beVal b off w := by
  unfold beVal
  rw [readBytes_congr off w (fun i _ hi => storeDat_point_lt es k i b (by omega))]

theorem leVal_storeDat_lt (es : List DatEntry) (k off w : Nat) (b : Buf)
    (h : off + w ≤ 60 + 8 * k) :
    leVal (storeDat b k es) off w = leVal b off w := by
  unfold leVal
  rw [readBytes_congr off w (fun i _ hi => storeDat_point_lt es k i b (by omega))]

theorem beVal_storeDat_ge (es : List DatEntry) (k off w : Nat) (b : Buf)
    (hk : k + es.length ≤ 16) (h : 187 ≤ off) :
    beVal (storeDat b k es) off w = beVal b off w := by
  unfold beVal
  rw [readBytes_congr off w (fun i hi _ => storeDat_point_ge es k i b hk (by omega))]

theorem readBytes_storeDat_ge (es : List DatEntry) (k off w : Nat) (b : Buf)
    (hk : k + es.length ≤ 16) (h : 187 ≤ off) :
    readBytes (storeDat b k es) off w = readBytes b off w :=
  readBytes_congr off w (fun i hi _ => storeDat_point_ge es k i b hk (by omega))

@[simp] theorem zeroBuf_apply (i : Nat) : zeroBuf i = 0 := rfl

theorem storeBytes_head (b : Buf) (off x : Nat) (bs : List Nat) :
    storeBytes b off (x :: bs) off = x := by
  unfold storeBytes
  rw [if_pos (by simp)]
  simp

theorem map_mod_eq_self (l : List Nat) (h : ∀ x ∈ l, x < 256) :
    l.map (· % 256) = l := by
  conv_rhs => rw [← List.map_id l]
  exact List.map_congr_left fun x hx => Nat.mod_eq_of_lt (h x hx)

theorem readBytes_storeBytes_len (b : Buf) (off w : Nat) (bs : List Nat)
    (h : bs.length = w) : readBytes (storeBytes b off bs) off w = bs := by
  rw [← h]
  exact readBytes_storeBytes_exact b off bs

/-- The decode loop recovers entry `k + j` from the stores of the encode
loop, for in-range entry values. -/
theorem readDatEntry_storeDat (es : List DatEntry) :
    ∀ (k j : Nat) (b : Buf), k + es.length ≤ 16 → j < es.length →
    (∀ e ∈ es, e.size < 4294967296 ∧ e.LogicalElements < 65536 ∧ e.flags < 256) →
    readDatEntry (storeDat b k es) (k + j) = es.getD j dummyEntry := by
  induction es with
  | nil =>
    intro k j b _ hj _
    exact absurd hj (by simp)
  | cons e es ih =>
    intro k j b hk hj hb
    rw [List.length_cons] at hk
    match j with
    | 0 =>
      obtain ⟨h1, h2, h3⟩ := hb e (by simp)
      rw [storeDat]
      unfold readDatEntry
      simp only [Nat.add_zero, List.getD_cons_zero]
      rw [beVal_storeDat_lt es (k + 1) (60 + 8 * k) 4 _ (by omega),
        beVal_storeDat_lt es (k + 1) (64 + 8 * k) 2 _ (by omega),
        storeDat_point_lt es (k + 1) (66 + 8 * k) _ (by omega)]
      rw [beVal_storeBytes_out _ (60 + 8 * k) 4 (66 + 8 * k) _ (Or.inr (by omega)),
        beVal_storeBytes_out _ (60 + 8 * k) 4 (64 + 8 * k) _ (Or.inr (by omega)),
        beVal_storeBytes_exact _ (60 + 8 * k) 4 _ (by simp),
        beVal_storeBytes_out _ (64 + 8 * k) 2 (66 + 8 * k) _ (Or.inr (by omega)),
        beVal_storeBytes_exact _ (64 + 8 * k) 2 _ (by simp)]
      have hpt := storeBytes_point_in
        (storeBytes (storeBytes b (60 + 8 * k) (beBytes 4 e.size))
          (64 + 8 * k) (beBytes 2 e.LogicalElements))
        (66 + 8 * k) [e.flags % 256] 0 (by simp)
      rw [Nat.add_zero] at hpt
      rw [hpt]
      rw [beOfList_beBytes, beOfList_beBytes]
      simp only [List.getD_cons_zero]
      have hs : e.size % 256 ^ 4 = e.size := Nat.mod_eq_of_lt (by norm_num; omega)
      have hl : e.LogicalElements % 256 ^ 2 = e.LogicalElements :=
        Nat.mod_eq_of_lt (by norm_num; omega)
      have hf : e.flags % 256 = e.flags := Nat.mod_eq_of_lt h3
      rw [hs, hl, hf]
    | j + 1 =>
      rw [storeDat]
      have harr : k + (j + 1) = (k + 1) + j := by omega
      rw [harr, ih (k + 1) j _ (by omega) (by simp at hj; omega)
        (fun x hx => hb x (by simp [hx]))]
      simp

/-- Entry `k`'s decode only looks at bytes `60+8k … 66+8k`. -/
theorem readDatEntry_congr {b b' : Buf} (k : Nat)
    (h : ∀ i, 60 + 8 * k ≤ i → i < 67 + 8 * k → b i = b' i) :
    readDatEntry b k = readDatEntry b' k := by
  unfold readDatEntry beVal
  rw [readBytes_congr (60 + 8 * k) 4 (fun i hi1 hi2 => h i (by omega) (by omega)),
    readBytes_congr (64 + 8 * k) 2 (fun i hi1 hi2 => h i (by omega) (by omega)),
    h (66 + 8 * k) (by omega) (by omega)]

/-- The decode loop recovers the whole data-access table written by the
encode loop. -/
theorem readDat_FormatAuxFrame (m : AUX_FRAME) (hn : m.dat.length ≤ 16)
    (hent : ∀ e ∈ m.dat,
      e.size < 4294967296 ∧ e.LogicalElements < 65536 ∧ e.flags < 256) :
    readDat (FormatAuxFrame m) m.dat.length = m.dat := by
  unfold readDat
  have hpt : ∀ k ∈ List.range m.dat.length,
      readDatEntry (FormatAuxFrame m) k = m.dat.getD k dummyEntry := by
    intro k hk
    rw [List.mem_range] at hk
    have hk15 : k ≤ 15 := by omega
    have hcong : readDatEntry (FormatAuxFrame m) k =
        readDatEntry (storeDat (formatScalars m) 0 m.dat) k := by
      apply readDatEntry_congr
      intro i hi1 hi2
      simp only [FormatAuxFrame]
      rw [storeBytes_point_out _ _ _ _ (Or.inl (by omega)),
        storeBytes_point_out _ _ _ _ (Or.inl (by omega)),
        storeBytes_point_out _ _ _ _ (Or.inl (by omega)),
        storeBytes_point_out _ _ _ _ (Or.inl (by omega))]
    rw [hcong]
    have hrec := readDatEntry_storeDat m.dat 0 k (formatScalars m)
      (by omega) hk hent
    rw [Nat.zero_add] at hrec
    exact hrec
  rw [List.map_congr_left hpt]
  exact map_range_getD dummyEntry m.dat

/-- **C1.** For every metadata record `m` with `nEntries` between 0 and 16
(`m.dat.length ≤ 16`) and arbitrary values in its encodable fields (each
within the range of its C struct type, as `wellFormed` states), decoding
the 512-byte image produced by encoding `m` — `unFormatAuxFrame` applied to
the output of `FormatAuxFrame` — yields a record equal to `m` in every
field. -/
theorem c1_frame_codec_roundtrip (m : AUX_FRAME) (h : wellFormed m) :
    unFormatAuxFrame (FormatAuxFrame m) = some m := by
  obtain ⟨h1, h2, h3, h4, h5, h6, h7, h8, h9, hn, hent, h10, h11, hdu, hdb⟩ := h
  have hm0 : FormatAuxFrame m 0 = 0 := by
    simp [FormatAuxFrame, formatScalars, storeBytes_point_out, storeDat_point_lt]
  have hm1 : FormatAuxFrame m 1 = 0 := by
    simp [FormatAuxFrame, formatScalars, storeBytes_point_out, storeDat_point_lt]
  have hm2 : FormatAuxFrame m 2 = 0 := by
    simp [FormatAuxFrame, formatScalars, storeBytes_point_out, storeDat_point_lt]
  have hm3 : FormatAuxFrame m 3 = 0 := by
    simp [FormatAuxFrame, formatScalars, storeBytes_point_out, storeDat_point_lt]
  have hb58 : FormatAuxFrame m 58 = m.dat.length := by
    simp [FormatAuxFrame, formatScalars, storeBytes_point_out, storeDat_point_lt,
      storeBytes_head, Nat.mod_eq_of_lt (show m.dat.length < 256 by omega)]
  unfold unFormatAuxFrame
  rw [if_neg (by simp [hm0, hm1, hm2, hm3])]
  rw [hb58, if_neg (by omega), readDat_FormatAuxFrame m hn hent]
  rw [Option.some.injEq]
  obtain ⟨sig, ufc, ft, pn, wpc, ffa, lfa, fsn, lba, dat, fmc, lma, du⟩ := m
  simp only [AUX_FRAME.mk.injEq]
  refine ⟨?_, ?_, ?_, ?_, ?_, ?_, ?_, ?_, ?_, trivial, ?_, ?_, ?_⟩ <;>
    simp [FormatAuxFrame, formatScalars, beVal_storeBytes_out, beVal_storeBytes_exact,
      leVal_storeBytes_out, leVal_storeBytes_exact, beVal_storeDat_lt, leVal_storeDat_lt,
      beVal_storeDat_ge, storeBytes_point_out, storeDat_point_lt, storeBytes_head,
      readBytes_storeBytes_out, readBytes_storeDat_ge, readBytes_storeBytes_len,
      beOfList_beBytes, leOfList_leBytes, hn, hdu, map_mod_eq_self du hdb,
      Nat.mod_eq_of_lt h1, Nat.mod_eq_of_lt h2, Nat.mod_eq_of_lt h3, Nat.mod_eq_of_lt h4,
      Nat.mod_eq_of_lt h5, Nat.mod_eq_of_lt h6, Nat.mod_eq_of_lt h7, Nat.mod_eq_of_lt h8,
      Nat.mod_eq_of_lt h9, Nat.mod_eq_of_lt h10, Nat.mod_eq_of_lt h11]

/-- Witness for C1 at a concrete record. -/
theorem c1_frame_codec_roundtrip_witness :
    wellFormed sampleFrame ∧
      unFormatAuxFrame (FormatAuxFrame sampleFrame) = some sampleFrame :=
  ⟨by decide, c1_frame_codec_roundtrip sampleFrame (by decide)⟩

/-- **C6.** For every 512-byte input whose first 4 bytes are not all zero,
`unFormatAuxFrame` returns the empty/invalid metadata record: no field of
the input past the marker is even read, and the result is the ordinary
`none` outcome of the total decode function — not a fault. -/
theorem c6_nonzero_marker_decodes_empty (b : Buf)
    (h : b 0 ≠ 0 ∨ b 1 ≠ 0 ∨ b 2 ≠ 0 ∨ b 3 ≠ 0) :
    unFormatAuxFrame b = none := by
  unfold unFormatAuxFrame
  rw [if_pos h]

/-- Witness for C6 at a concrete all-ones buffer. -/
theorem c6_nonzero_marker_decodes_empty_witness :
    ((fun _ => 1 : Buf) 0 ≠ 0 ∨ (fun _ => 1 : Buf) 1 ≠ 0 ∨
      (fun _ => 1 : Buf) 2 ≠ 0 ∨ (fun _ => 1 : Buf) 3 ≠ 0) ∧
      unFormatAuxFrame (fun _ => 1) = none :=
  ⟨Or.inl (by norm_num),
    c6_nonzero_marker_decodes_empty (fun _ => 1) (Or.inl (by norm_num))⟩

/-- **C3.** The sense classifier is the exact function of the packed triple
`key<<16 | asc<<8 | ascq` given by the fixed table — shown for every listed
table entry — and every triple not in the table maps to `SUnknown`. -/
theorem c3_sense_classifier :
    CheckSense 0 0 0 = .SNoSense ∧
    CheckSense 5 0x24 0 = .SInvalidCDB ∧
    CheckSense 2 0x04 0 = .SNotReportable ∧
    CheckSense 2 0x04 1 = .SReadyInProgress ∧
    CheckSense 2 0x04 2 = .SInitRequired ∧
    CheckSense 2 0x3A 0 = .SNoMedium ∧
    CheckSense 2 0x04 8 = .SLongWrite ∧
    CheckSense 3 0x0C 0 = .SMediumWriteError ∧
    CheckSense 3 0x11 0 = .SUnrecoveredReadError ∧
    CheckSense 5 0x26 2 = .SInvalidParameter ∧
    CheckSense 6 0x28 0 = .SNotReadyToReady ∧
    CheckSense 6 0x29 0 = .SPowerOnReset ∧
    CheckSense 0xD 0x00 2 = .SEndOfMedium ∧
    CheckSense 8 0x00 5 = .SEOD ∧
    ∀ key asc ascq : Nat, packSense key asc ascq ∉ senseTable →
      CheckSense key asc ascq = .SUnknown := by
  refine ⟨by decide, by decide, by decide, by decide, by decide, by decide,
    by decide, by decide, by decide, by decide, by decide, by decide,
    by decide, by decide, ?_⟩
  intro key asc ascq h
  simp only [senseTable, List.mem_cons, List.not_mem_nil, or_false, not_or] at h
  obtain ⟨n1, n2, n3, n4, n5, n6, n7, n8, n9, n10, n11, n12, n13, n14⟩ := h
  simp only [CheckSense]
  rw [if_neg n1, if_neg n2, if_neg n3, if_neg n4, if_neg n5, if_neg n6,
    if_neg n7, if_neg n9, if_neg n8, if_neg n10, if_neg n11, if_neg n12,
    if_neg n13, if_neg n14]

/-- Witness for C3's default arm at a concrete unlisted triple. -/
theorem c3_sense_classifier_witness :
    packSense 1 2 3 ∉ senseTable ∧ CheckSense 1 2 3 = .SUnknown :=
  ⟨by decide,
    c3_sense_classifier.2.2.2.2.2.2.2.2.2.2.2.2.2.2 1 2 3 (by decide)⟩

/-- **C4.** The firmware-revision normalizer computes, for a released
format `"D.DD"` (digit codes `48+d`), `d0*10000 + d2*1000 + d3*100`; for an
unreleased format `"DDDL"` with a trailing ASCII letter `L`,
`d0*10000 + d1*1000 + d2*100 - 100` plus `2*(L &&& 0x1F) + 1` if `L` is
lowercase and `2*(L &&& 0x1F)` otherwise; and in particular
`normalize("1.05") < normalize("106A") < normalize("106a") <
normalize("106B") < normalize("1.06")`. -/
theorem c4_firmware_normalizer :
    (∀ d0 d2 d3 : Nat, d0 ≤ 9 → d2 ≤ 9 → d3 ≤ 9 →
      ParseFirmwareRev (48 + d0) 46 (48 + d2) (48 + d3) =
        d0 * 10000 + d2 * 1000 + d3 * 100) ∧
    (∀ d0 d1 d2 L : Nat, d0 ≤ 9 → d1 ≤ 9 → d2 ≤ 9 → 1 ≤ d0 →
      (65 ≤ L ∧ L ≤ 90) ∨ (97 ≤ L ∧ L ≤ 122) →
      ParseFirmwareRev (48 + d0) (48 + d1) (48 + d2) L =
        d0 * 10000 + d1 * 1000 + d2 * 100 - 100 + 2 * (L &&& 31) +
          (if 97 ≤ L then 1 else 0)) ∧
    (ParseFirmwareRev 49 46 48 53 < ParseFirmwareRev 49 48 54 65 ∧
      ParseFirmwareRev 49 48 54 65 < ParseFirmwareRev 49 48 54 97 ∧
      ParseFirmwareRev 49 48 54 97 < ParseFirmwareRev 49 48 54 66 ∧
      ParseFirmwareRev 49 48 54 66 < ParseFirmwareRev 49 46 48 54) := by
  refine ⟨?_, ?_, by decide, by decide, by decide, by decide⟩
  · intro d0 d2 d3 h0 h2 h3
    unfold ParseFirmwareRev
    rw [if_pos rfl]
    omega
  · intro d0 d1 d2 L h0 h1 h2 hd0 hL
    unfold ParseFirmwareRev
    rw [if_neg (by omega)]
    have ha : L &&& 31 ≤ 31 := Nat.and_le_right
    rcases hL with ⟨hl, hu⟩ | ⟨hl, hu⟩
    · rw [if_neg (by omega), if_neg (by omega)]
      omega
    · rw [if_pos (by omega), if_pos (by omega)]
      omega

/-- Witness for C4 at the concrete strings `"1.05"` and `"106a"`. -/
theorem c4_firmware_normalizer_witness :
    ParseFirmwareRev 49 46 48 53 = 10500 ∧ ParseFirmwareRev 49 48 54 97 = 10503 := by
  constructor
  · have h := c4_firmware_normalizer.1 1 0 5 (by norm_num) (by norm_num) (by norm_num)
    norm_num at h
    exact h
  · have h := c4_firmware_normalizer.2.1 1 0 6 97 (by norm_num) (by norm_num)
      (by norm_num) (by norm_num) (Or.inr (by norm_num))
    have ha : (97 : Nat) &&& 31 = 1 := by decide
    rw [ha] at h
    norm_num at h
    exact h

/-- **C5.** On a medium write error, firmware 10550 (below 10600) makes
`SkipLocate` return 0 without attempting any relocation and `main` takes
the full-requeue path; firmware 10700 (at least 10600), when the drive
answers and reports a nonzero position, takes the skip-locate path. -/
theorem c5_recovery_strategy_selection :
    (∀ (skip : Nat) (d : DriveIO) (cf rq : Nat),
      SkipLocate 10550 skip d = (0, none) ∧
        writeErrorRecovery 10550 cf skip d rq = .requeuePath (cf + rq)) ∧
    (∀ (skip : Nat) (d : DriveIO) (cf rq : Nat),
      d.readPosOk = true → d.locateOk = true → d.readPos2Ok = true →
      d.posFirst2 ≠ 0 →
      writeErrorRecovery 10700 cf skip d rq = .skipLocatePath d.posFirst2) := by
  constructor
  · intro skip d cf rq
    constructor <;> simp [SkipLocate, writeErrorRecovery]
  · intro skip d cf rq h1 h2 h3 h4
    simp [SkipLocate, writeErrorRecovery, h1, h2, h3, h4]

/-- Witness for C5 at a concrete drive state. -/
theorem c5_recovery_strategy_selection_witness :
    writeErrorRecovery 10550 50 80 ⟨true, 5, 7, true, true, 123, 130⟩ 80 =
        .requeuePath 130 ∧
      writeErrorRecovery 10700 50 80 ⟨true, 5, 7, true, true, 123, 130⟩ 80 =
        .skipLocatePath 123 :=
  ⟨(c5_recovery_strategy_selection.1 80 ⟨true, 5, 7, true, true, 123, 130⟩ 50 80).2,
    c5_recovery_strategy_selection.2 80 ⟨true, 5, 7, true, true, 123, 130⟩ 50 80
      rfl rfl rfl (by decide)⟩

theorem deleteFramesLoop_counter_short (n : Nat) :
    ∀ (l : List Frame) (c : Nat), c + l.length < n →
    (deleteFramesLoop n l c).2 = c + l.length := by
  intro l
  induction l with
  | nil => intro c h; simp [deleteFramesLoop]
  | cons f tl ih =>
    intro c h
    simp only [List.length_cons] at h ⊢
    rw [deleteFramesLoop, if_pos (by omega), ih (c + 1) (by omega)]
    omega

theorem deleteFramesLoop_counter_long (n : Nat) :
    ∀ (l : List Frame) (c : Nat), c ≤ n → n ≤ c + l.length →
    (deleteFramesLoop n l c).2 = n ∧
      (deleteFramesLoop n l c).1 = l.drop (n - c) := by
  intro l
  induction l with
  | nil =>
    intro c h1 h2
    simp only [List.length_cons, List.length_nil, Nat.add_zero] at h2
    have : c = n := by omega
    simp [deleteFramesLoop, this]
  | cons f tl ih =>
    intro c h1 h2
    rw [List.length_cons] at h2
    by_cases hc : c < n
    · rw [deleteFramesLoop, if_pos hc]
      obtain ⟨ha, hb⟩ := ih (c + 1) (by omega) (by omega)
      refine ⟨ha, ?_⟩
      rw [hb]
      have : n - c = (n - (c + 1)) + 1 := by omega
      rw [this, List.drop_succ_cons]
    · have : c = n := by omega
      rw [deleteFramesLoop, if_neg hc]
      simp [this]

/-- **C2.** A trim request strictly greater than the ledger length makes
`DeleteFrames` report the consistency fault (`false`) rather than succeed;
and when the ledger length (`TotalBufferedFrames`) and the drive-reported
buffered-frame count are observed to disagree after the trim inside
`RequeueData`, the condition is fatal: the routine aborts (`exit(-1)`,
modelled `none`) and issues no further locate or write. -/
theorem c2_trim_fault_and_mismatch_fatal :
    (∀ (ledger : List Frame) (n total : Nat), ledger.length < n →
      (DeleteFrames ledger n total).2.2 = false) ∧
    (∀ (cf : Nat) (ledger : List Frame) (cb tbf skip : Nat), cb ≠ tbf →
      RequeueData cf ledger cb tbf skip = none) := by
  constructor
  · intro ledger n total h
    simp only [DeleteFrames]
    rw [deleteFramesLoop_counter_short n ledger 0 (by omega)]
    rw [if_pos (by omega)]
  · intro cf ledger cb tbf skip h
    unfold RequeueData
    rw [if_pos h]

/-- Witness for C2 at concrete inputs. -/
theorem c2_trim_fault_and_mismatch_fatal_witness :
    (DeleteFrames [[7]] 2 1).2.2 = false ∧ RequeueData 5 [] 3 4 80 = none :=
  ⟨c2_trim_fault_and_mismatch_fatal.1 [[7]] 2 1 (by decide),
    c2_trim_fault_and_mismatch_fatal.2 5 [] 3 4 80 (by decide)⟩

/-- **C10 (evaluation at the failing input).** A single
`AddFrameToBuffer` push from the initial empty ledger — a well-defined
execution, no dangling pointer involved — leaves `TotalBufferedFrames = 1`
while the global head `TapeBuffer` is still `NULL`, so the list reachable
from it is empty: the counter does not equal the reachable node count.
(`TapeBuffer = *LastBuffer` assigns the old, null, last pointer.) -/
theorem c10_push_on_empty_counter_mismatch :
    (AddFrameToBuffer initLedger [7]).total = 1 ∧
      reachableFrames (AddFrameToBuffer initLedger [7]) = [] ∧
      (AddFrameToBuffer initLedger [7]).headPos = none ∧
      (AddFrameToBuffer initLedger [7]).ub = false := by
  refine ⟨rfl, ?_, rfl, rfl⟩
  rfl

/-- From the second push on, the head is linked and the counter matches:
context for C10 showing the mismatch is exactly the first-push lag. -/
theorem ledger_second_push_restores_match (f g : Frame) :
    (AddFrameToBuffer (AddFrameToBuffer initLedger f) g).total = 2 ∧
      reachableFrames (AddFrameToBuffer (AddFrameToBuffer initLedger f) g) =
        [f, g] := by
  constructor
  · rfl
  · rfl

theorem writesOf_append (a b : List TapeAction) :
    writesOf (a ++ b) = writesOf a ++ writesOf b := by
  induction a with
  | nil => rfl
  | cons x rest ih => cases x <;> simp [writesOf, ih]

theorem writesOf_map_writeFrame (l : List Frame) :
    writesOf (l.map TapeAction.writeFrame) = l := by
  induction l with
  | nil => rfl
  | cons f rest ih => simp [writesOf, ih]

theorem add32_eq (a b : Nat) (h : a + b < M32) : add32 a b = a + b := by
  unfold add32
  exact Nat.mod_eq_of_lt h

theorem sub32_eq (a b : Nat) (ha : a < M32) (hb : b ≤ a) :
    sub32 a b = a - b := by
  unfold sub32 M32
  unfold M32 at ha
  omega

/-- **C7.** When the write session observes the power-on-reset sense
condition, it relocates the tape to `CurrentFrame` minus the ledger length
(the last known committed position) and then retransmits every frame
currently in the ledger, oldest first and unmodified, before any other
write: under the ledger invariant `TotalBufferedFrames =` (reachable
ledger length), the action sequence is exactly the buffer flush, the
locate to `CurrentFrame - length`, the retry relocate, and one write per
ledger frame in ledger order — and the frames written are exactly the
ledger. -/
theorem c7_power_on_reset_replays_ledger (cf dbc dp : Nat) (s : LedgerSt)
    (hinv : s.total = (reachableFrames s).length)
    (hcf : s.total ≤ cf) (hcf32 : cf < M32) :
    powerOnResetActions cf dbc dp s =
        FlushBufferActs dbc ++
          TapeAction.locate (cf - (reachableFrames s).length) ::
            TapeAction.locate dp ::
              (reachableFrames s).map TapeAction.writeFrame ∧
      writesOf (powerOnResetActions cf dbc dp s) = reachableFrames s := by
  constructor
  · unfold powerOnResetActions RequeueDataRetry
    rw [sub32_eq cf s.total hcf32 hcf, hinv, Nat.add_zero]
  · unfold powerOnResetActions RequeueDataRetry
    rw [writesOf_append]
    unfold FlushBufferActs
    rcases Nat.eq_zero_or_pos dbc with h | h
    · rw [if_pos h]
      simp [writesOf, writesOf_map_writeFrame]
    · rw [if_neg (by omega)]
      simp [writesOf, writesOf_map_writeFrame]

/-- Witness for C7 at a concrete two-frame ledger. -/
theorem c7_power_on_reset_replays_ledger_witness :
    ((⟨[[1], [2]], some 0, 1, 2, false⟩ : LedgerSt).total ≤ 10 ∧ 10 < M32) ∧
    (⟨[[1], [2]], some 0, 1, 2, false⟩ : LedgerSt).total =
        (reachableFrames ⟨[[1], [2]], some 0, 1, 2, false⟩).length ∧
      powerOnResetActions 10 3 8 ⟨[[1], [2]], some 0, 1, 2, false⟩ =
          FlushBufferActs 3 ++
            TapeAction.locate
                (10 - (reachableFrames ⟨[[1], [2]], some 0, 1, 2, false⟩).length) ::
              TapeAction.locate 8 ::
                (reachableFrames ⟨[[1], [2]], some 0, 1, 2, false⟩).map
                  TapeAction.writeFrame ∧
        writesOf (powerOnResetActions 10 3 8 ⟨[[1], [2]], some 0, 1, 2, false⟩) =
          reachableFrames ⟨[[1], [2]], some 0, 1, 2, false⟩ :=
  ⟨⟨by decide, by decide⟩, by decide,
    c7_power_on_reset_replays_ledger 10 3 8 ⟨[[1], [2]], some 0, 1, 2, false⟩
      (by decide) (by decide) (by decide)⟩

/-- **C8.** For a successfully read data frame of the current write pass
(away from the cursor-adoption corner `CurrentSeqNo = 0 ∧ StartFrameSet`):
a frame whose sequence number is lower than the expected cursor is skipped
with nothing emitted and the cursor, retry counter and output unchanged;
an equal one emits exactly the first data-access-table entry's `size`
payload bytes, advances the cursor by one and resets the retry counter;
a higher one emits nothing and either stops the session (`eof`) when the
retry counter exceeds the ceiling of 5, or increments the retry counter
and relocates backwards to `CurrentFrame - (seq - cursor)` (stated away
from the secondary-config-area adjustment window). -/
theorem c8_read_loop_frame_disposition (WP : Nat) (SFS : Bool)
    (scfg adr : Nat) (s : ReadState) (m : AUX_FRAME) (payload : List Nat)
    (hft : m.FrameType = 0x8000) (hwp : m.WritePassCounter = WP)
    (hadopt : ¬(s.CurrentSeqNo = 0 ∧ SFS = true)) :
    (m.FrameSequenceNumber < s.CurrentSeqNo →
      (readFrameStep WP SFS scfg adr s m payload).emitted = [] ∧
      (readFrameStep WP SFS scfg adr s m payload).st.out = s.out ∧
      (readFrameStep WP SFS scfg adr s m payload).st.CurrentSeqNo =
        s.CurrentSeqNo ∧
      (readFrameStep WP SFS scfg adr s m payload).st.retry = s.retry ∧
      (readFrameStep WP SFS scfg adr s m payload).reloc = none) ∧
    (m.FrameSequenceNumber = s.CurrentSeqNo →
      (m.dat.headD dummyEntry).size ≤ payload.length →
      s.CurrentSeqNo + 1 < M32 →
      (readFrameStep WP SFS scfg adr s m payload).emitted =
        payload.take (m.dat.headD dummyEntry).size ∧
      (readFrameStep WP SFS scfg adr s m payload).emitted.length =
        (m.dat.headD dummyEntry).size ∧
      (readFrameStep WP SFS scfg adr s m payload).st.out =
        s.out ++ payload.take (m.dat.headD dummyEntry).size ∧
      (readFrameStep WP SFS scfg adr s m payload).st.CurrentSeqNo =
        s.CurrentSeqNo + 1 ∧
      (readFrameStep WP SFS scfg adr s m payload).st.retry = 0) ∧
    (s.CurrentSeqNo < m.FrameSequenceNumber →
      ((5 < s.retry →
        (readFrameStep WP SFS scfg adr s m payload).st.eof = true ∧
        (readFrameStep WP SFS scfg adr s m payload).reloc = none ∧
        (readFrameStep WP SFS scfg adr s m payload).emitted = []) ∧
      (s.retry ≤ 5 →
        m.FrameSequenceNumber < M32 →
        s.CurrentFrame + 1 < M32 →
        m.FrameSequenceNumber - s.CurrentSeqNo ≤ s.CurrentFrame →
        ¬(scfg < s.CurrentFrame - (m.FrameSequenceNumber - s.CurrentSeqNo) ∧
          s.CurrentFrame - (m.FrameSequenceNumber - s.CurrentSeqNo) ≤ scfg + 5) →
        (readFrameStep WP SFS scfg adr s m payload).reloc =
          some (s.CurrentFrame - (m.FrameSequenceNumber - s.CurrentSeqNo)) ∧
        (readFrameStep WP SFS scfg adr s m payload).st.CurrentFrame =
          s.CurrentFrame - (m.FrameSequenceNumber - s.CurrentSeqNo) ∧
        (readFrameStep WP SFS scfg adr s m payload).st.retry = s.retry + 1 ∧
        (readFrameStep WP SFS scfg adr s m payload).emitted = []))) := by
  refine ⟨?_, ?_, ?_⟩
  · intro hlow
    simp [readFrameStep, hft, hwp, hadopt, hlow]
  · intro heq hsz hseq
    have hnotlow : ¬ m.FrameSequenceNumber < s.CurrentSeqNo := by omega
    have hnothigh : ¬ s.CurrentSeqNo < m.FrameSequenceNumber := by omega
    have hsz' : (m.dat.head?.getD dummyEntry).size ≤ payload.length := by
      simpa using hsz
    simp [readFrameStep, hft, hwp, hadopt, hnotlow, hnothigh, hsz',
      List.length_take, Nat.min_eq_left, add32_eq _ 1 hseq, heq]
  · intro hhigh
    have hnotlow : ¬ m.FrameSequenceNumber < s.CurrentSeqNo := by omega
    constructor
    · intro hretry
      simp [readFrameStep, hft, hwp, hadopt, hnotlow, hhigh, hretry]
    · intro hretry hm32 hcf32 hdel hwin
      have hr : ¬ 5 < s.retry := by omega
      have hs1 : sub32 m.FrameSequenceNumber s.CurrentSeqNo =
          m.FrameSequenceNumber - s.CurrentSeqNo := by
        apply sub32_eq _ _ hm32
        omega
      have hs2 : add32 (m.FrameSequenceNumber - s.CurrentSeqNo) 1 =
          m.FrameSequenceNumber - s.CurrentSeqNo + 1 := by
        apply add32_eq
        unfold M32 at hcf32 ⊢
        omega
      have hs3 : add32 s.CurrentFrame 1 = s.CurrentFrame + 1 :=
        add32_eq _ _ hcf32
      have hs4 : sub32 (s.CurrentFrame + 1)
          (m.FrameSequenceNumber - s.CurrentSeqNo + 1) =
          s.CurrentFrame - (m.FrameSequenceNumber - s.CurrentSeqNo) := by
        rw [sub32_eq _ _ hcf32 (by omega)]
        omega
      simp [readFrameStep, hft, hwp, hadopt, hnotlow, hhigh, hr,
        hs1, hs2, hs3, hs4]
      intro h1 h2
      exact absurd ⟨h1, by omega⟩ hwin

/-- Witness for C8 at a concrete consumable frame. -/
theorem c8_read_loop_frame_disposition_witness :
    ((2 : Nat) = (2 : Nat) →
      ((⟨32760, 1, 12⟩ : DatEntry).size : Nat) ≤ ([0, 1, 2] : List Nat).length →
      (2 : Nat) + 1 < M32 → True) ∧
    (readFrameStep 5 false 2990 10004
        ⟨100, 2, 0, false, []⟩
        { sampleFrame with WritePassCounter := 5, FrameSequenceNumber := 2,
                           dat := [⟨2, 1, 12⟩] }
        [9, 8, 7]).st.CurrentSeqNo = 3 ∧
    (readFrameStep 5 false 2990 10004
        ⟨100, 2, 0, false, []⟩
        { sampleFrame with WritePassCounter := 5, FrameSequenceNumber := 2,
                           dat := [⟨2, 1, 12⟩] }
        [9, 8, 7]).emitted = [9, 8] := by
  have h := (c8_read_loop_frame_disposition 5 false 2990 10004
    ⟨100, 2, 0, false, []⟩
    { sampleFrame with WritePassCounter := 5, FrameSequenceNumber := 2,
                       dat := [⟨2, 1, 12⟩] }
    [9, 8, 7] (by decide) (by decide) (by decide)).2.1
    (by decide) (by decide) (by decide)
  exact ⟨fun _ _ _ => trivial, h.2.2.2.1, h.1⟩

/-- A stale data frame only advances the tape position: the step emits
nothing and leaves sequence cursor, retry counter, eof flag and output
untouched. -/
theorem readFrameStep_stale (WP : Nat) (SFS : Bool) (scfg adr : Nat)
    (s : ReadState) (m : AUX_FRAME) (p : List Nat)
    (h1 : m.FrameType = 0x8000) (h2 : m.WritePassCounter ≠ WP) :
    (readFrameStep WP SFS scfg adr s m p).st =
        { s with CurrentFrame := add32 s.CurrentFrame 1 } ∧
      (readFrameStep WP SFS scfg adr s m p).emitted = [] := by
  simp [readFrameStep, h1, h2]

/-- The step's branching, emission and every state component except
`CurrentFrame` are independent of `CurrentFrame`. -/
theorem readFrameStep_shadow (WP : Nat) (SFS : Bool) (scfg adr : Nat)
    (a a' b c : Nat) (d : Bool) (e : List Nat) (m : AUX_FRAME) (p : List Nat) :
    shadowEq (readFrameStep WP SFS scfg adr ⟨a, b, c, d, e⟩ m p).st
        (readFrameStep WP SFS scfg adr ⟨a', b, c, d, e⟩ m p).st ∧
      (readFrameStep WP SFS scfg adr ⟨a, b, c, d, e⟩ m p).emitted =
        (readFrameStep WP SFS scfg adr ⟨a', b, c, d, e⟩ m p).emitted := by
  simp only [readFrameStep, shadowEq]
  split_ifs <;> simp

/-- Once `eof` is set the loop consumes nothing further. -/
theorem readRun_eof (WP : Nat) (SFS : Bool) (scfg adr : Nat)
    (s : ReadState) (h : s.eof = true) :
    ∀ L, readRun WP SFS scfg adr s L = s := by
  intro L
  cases L <;> simp [readRun, h]

/-- The output of a read run is the output of the same run with every
stale-pass data frame deleted from the input — stale frames contribute no
byte, whatever else is interleaved. -/
theorem readRun_out_filter (WP : Nat) (SFS : Bool) (scfg adr : Nat) :
    ∀ (L : List (AUX_FRAME × List Nat)) (s s' : ReadState), shadowEq s s' →
    (readRun WP SFS scfg adr s L).out =
      (readRun WP SFS scfg adr s'
        (L.filter (fun mp => !staleData WP mp.1))).out := by
  intro L
  induction L with
  | nil =>
    intro s s' h
    simpa [readRun] using h.2.2.2
  | cons mp rest ih =>
    intro s s' h
    obtain ⟨m, p⟩ := mp
    obtain ⟨h1, h2, h3, h4⟩ := h
    by_cases he : s.eof = true
    · have he' : s'.eof = true := by rw [← h3]; exact he
      rw [readRun_eof WP SFS scfg adr s he, readRun_eof WP SFS scfg adr s' he']
      exact h4
    · have he2 : s.eof = false := by simpa using he
      have he' : s'.eof = false := by rw [← h3]; exact he2
      by_cases hst : staleData WP m = true
      · have hfd : m.FrameType = 0x8000 ∧ m.WritePassCounter ≠ WP := by
          simpa [staleData] using hst
        have hlhs : readRun WP SFS scfg adr s ((m, p) :: rest) =
            readRun WP SFS scfg adr
              (readFrameStep WP SFS scfg adr s m p).st rest := by
          simp [readRun, he2]
        have hstale := readFrameStep_stale WP SFS scfg adr s m p hfd.1 hfd.2
        have hfil : ((m, p) :: rest).filter (fun mp => !staleData WP mp.1) =
            rest.filter (fun mp => !staleData WP mp.1) := by
          simp [List.filter, hst]
        rw [hlhs, hfil]
        exact ih (readFrameStep WP SFS scfg adr s m p).st s'
          (by rw [hstale.1]; exact ⟨h1, h2, h3, h4⟩)
      · have hst' : staleData WP m = false := by simpa using hst
        have hfil : ((m, p) :: rest).filter (fun mp => !staleData WP mp.1) =
            (m, p) :: rest.filter (fun mp => !staleData WP mp.1) := by
          simp [List.filter, hst']
        rw [hfil]
        have hlhs : readRun WP SFS scfg adr s ((m, p) :: rest) =
            readRun WP SFS scfg adr
              (readFrameStep WP SFS scfg adr s m p).st rest := by
          simp [readRun, he2]
        have hrhs : readRun WP SFS scfg adr s'
            ((m, p) :: rest.filter (fun mp => !staleData WP mp.1)) =
            readRun WP SFS scfg adr
              (readFrameStep WP SFS scfg adr s' m p).st
              (rest.filter (fun mp => !staleData WP mp.1)) := by
          simp [readRun, he']
        rw [hlhs, hrhs]
        obtain ⟨sa, sb, sc, sd, se⟩ := s
        obtain ⟨ta, tb, tc, td, te⟩ := s'
        simp only at h1 h2 h3 h4
        subst h1
        subst h2
        subst h3
        subst h4
        exact ih _ _ (readFrameStep_shadow WP SFS scfg adr sa ta sb sc sd se m p).1

/-- **C9.** A data frame whose `WritePassCounter` differs from the
session's expected write pass is never emitted to the output sink: a
single step on such a frame emits nothing and leaves the output unchanged,
and over any run of the read loop the output equals that of the run with
every stale-pass data frame removed — no byte of such a frame's payload
reaches the output on any execution. -/
theorem c9_stale_pass_never_emitted :
    (∀ (WP : Nat) (SFS : Bool) (scfg adr : Nat) (s : ReadState)
      (m : AUX_FRAME) (p : List Nat),
      m.FrameType = 0x8000 → m.WritePassCounter ≠ WP →
      (readFrameStep WP SFS scfg adr s m p).emitted = [] ∧
        (readFrameStep WP SFS scfg adr s m p).st.out = s.out) ∧
    (∀ (WP : Nat) (SFS : Bool) (scfg adr : Nat) (s : ReadState)
      (L : List (AUX_FRAME × List Nat)),
      (readRun WP SFS scfg adr s L).out =
        (readRun WP SFS scfg adr s
          (L.filter (fun mp => !staleData WP mp.1))).out) := by
  constructor
  · intro WP SFS scfg adr s m p h1 h2
    simp [readFrameStep, h1, h2]
  · intro WP SFS scfg adr s L
    exact readRun_out_filter WP SFS scfg adr L s s ⟨rfl, rfl, rfl, rfl⟩

/-- Witness for C9 at a concrete stale frame. -/
theorem c9_stale_pass_never_emitted_witness :
    ({ sampleFrame with WritePassCounter := 9 } : AUX_FRAME).FrameType =
        0x8000 ∧
      ({ sampleFrame with WritePassCounter := 9 } : AUX_FRAME).WritePassCounter ≠ 5 ∧
      (readFrameStep 5 false 2990 10004 ⟨100, 2, 0, false, [4]⟩
          { sampleFrame with WritePassCounter := 9 } [9, 8, 7]).emitted = [] ∧
      (readFrameStep 5 false 2990 10004 ⟨100, 2, 0, false, [4]⟩
          { sampleFrame with WritePassCounter := 9 } [9, 8, 7]).st.out = [4] := by
  have h := c9_stale_pass_never_emitted.1 5 false 2990 10004
    ⟨100, 2, 0, false, [4]⟩ { sampleFrame with WritePassCounter := 9 }
    [9, 8, 7] (by decide) (by decide)
  exact ⟨by decide, by decide, h.1, h.2⟩

end Onstream
